import Mathlib

/-!
Verification of the monobit font-conversion library against its
natural-language specification.  Python source functions are embedded
shallowly: byte strings become `List Nat` (each element < 256 where it
matters), fallible code returns `Except PyError`, and the Python runtime
errors that can occur on the modelled paths (undefined names, index
errors) are explicit error values.
-/

/-- Python runtime errors that the embedded code can raise, plus
monobit's own `FileFormatError`. -/
inductive PyError where
  | nameError
  | indexError
  | valueError
  | typeError
  | fileFormatError
  deriving DecidableEq, Repr

namespace LX

/-- Read `pBuf[i]` with Python semantics: out-of-range raises IndexError. -/
def byteAt (pBuf : List Nat) (i : Nat) : Except PyError Nat :=
  match pBuf[i]? with
  | some b => .ok b
  | none => .error .indexError

/--
Embedding of `_lx_unpack1` from `monobit/formats/os2/lx.py`.

The Python loop body reads `usReps`; if zero it breaks (returning the
output accumulated so far, which on the first iteration is empty);
otherwise it reads `usLen` and then evaluates the guard
`if ofOut + usReps * usLen > 4096`.  The name `ofOut` is not bound
anywhere in the module, so this guard raises `NameError` the first time
it is reached.  Consequently every path through the loop body ends the
call within the first iteration: the loop never repeats, and the
function below is its exact straight-line semantics.
-/
def lx_unpack1 (pBuf : List Nat) : Except PyError (List Nat) :=
  if pBuf.length > 4096 then .ok pBuf
  else
    -- first (and only possible) iteration of the `while True` loop
    match pBuf[0]?, pBuf[1]? with
    | some b0, some b1 =>
      if b0 ||| (b1 <<< 8) = 0 then
        -- `break` before anything was written: `abOut` is still empty
        .ok []
      else
        match pBuf[2]?, pBuf[3]? with
        | some _, some _ =>
          -- `if ofOut + usReps * usLen > 4096:` - `ofOut` is undefined
          .error .nameError
        | _, _ => .error .indexError
    | _, _ => .error .indexError

/--
The byte-exact EXEPACK1 expansion that the specification (P6 and the
ITERDATA description) requires of `_lx_unpack1`: records
`(reps:u16le, len:u16le, bytes[len])` in sequence, each payload emitted
`reps` times, decoding stopping at a record with `reps = 0`.
This is the specification-side definition used to state what the
claim expected; it is compared against the embedded code above.
-/
def exepack1Expand : Nat → List Nat → Except PyError (List Nat)
  | 0, _ => .error .valueError
  | fuel + 1, pBuf => do
    let b0 ← byteAt pBuf 0
    let b1 ← byteAt pBuf 1
    let reps := b0 ||| (b1 <<< 8)
    if reps = 0 then .ok []
    else do
      let c0 ← byteAt pBuf 2
      let c1 ← byteAt pBuf 3
      let len := c0 ||| (c1 <<< 8)
      let payload := (pBuf.drop 4).take len
      let rest ← exepack1Expand fuel (pBuf.drop (4 + len))
      .ok ((List.replicate reps payload).flatten ++ rest)

end LX

/--
C1: the claim says that for every EXEPACK1-compressed page containing at
least one iteration record with nonzero repetition count, `_lx_unpack1`
returns the byte-exact expansion of its records.  In fact, for every such
page (length at most 4096, first record's `reps` field nonzero, at least
4 bytes long so the record header is readable) the function raises
`NameError`: its page-overflow guard references the undefined name
`ofOut`.  The code can never produce the expansion the claim describes.
-/
theorem C1_lx_unpack1_raises_nameerror (pBuf : List Nat)
    (hlen : pBuf.length ≤ 4096) (h4 : 4 ≤ pBuf.length)
    (hreps : pBuf[0]?.getD 0 ||| (pBuf[1]?.getD 0 <<< 8) ≠ 0) :
    LX.lx_unpack1 pBuf = .error .nameError := by
  unfold LX.lx_unpack1
  rw [if_neg (by omega : ¬ pBuf.length > 4096)]
  have h0 : pBuf[0]? = some (pBuf[0]?.getD 0) := by
    rw [List.getElem?_eq_getElem (by omega)]
    rfl
  have h1 : pBuf[1]? = some (pBuf[1]?.getD 0) := by
    rw [List.getElem?_eq_getElem (by omega)]
    rfl
  have h2 : pBuf[2]? = some (pBuf[2]?.getD 0) := by
    rw [List.getElem?_eq_getElem (by omega)]
    rfl
  have h3 : pBuf[3]? = some (pBuf[3]?.getD 0) := by
    rw [List.getElem?_eq_getElem (by omega)]
    rfl
  rw [h0, h1, h2, h3]
  simp [hreps]

/--
C1 witness: the concrete page `01 00 01 00 41 00 00` (one record:
reps = 1, len = 1, payload `A`, then terminator) satisfies the
hypotheses; the specified expansion is `[0x41]`, but the code raises
`NameError` on it.
-/
theorem C1_lx_unpack1_raises_nameerror_witness :
    ([1, 0, 1, 0, 0x41, 0, 0] : List Nat).length ≤ 4096 ∧
    LX.exepack1Expand 8 [1, 0, 1, 0, 0x41, 0, 0] = .ok [0x41] ∧
    LX.lx_unpack1 [1, 0, 1, 0, 0x41, 0, 0] = .error .nameError := by
  refine ⟨by decide, by rfl, ?_⟩
  exact C1_lx_unpack1_raises_nameerror [1, 0, 1, 0, 0x41, 0, 0]
    (by decide) (by decide) (by decide)

namespace WinFNT

/-- `_KEEP_EMPTY` from `monobit/codecs/winfnt.py`: keep empty glyphs only
if they are mapped to NUL or SPACE. -/
def KEEP_EMPTY : List Nat := [0x00, 0x20]

/-- Little-endian 16-bit read at byte offset `i` (ctypes `word` field). -/
def u16le (fnt : List Nat) (i : Nat) : Nat :=
  fnt.getD i 0 ||| (fnt.getD (i + 1) 0 <<< 8)

/-- Little-endian 32-bit read at byte offset `i` (ctypes `dword` field). -/
def u32le (fnt : List Nat) (i : Nat) : Nat :=
  u16le fnt i ||| (u16le fnt (i + 2) <<< 16)

/-- Python slice `l[start:stop]` for non-negative bounds: forgiving
(clamps to the list, empty when `stop ≤ start`). -/
def pySlice (l : List α) (start stop : Nat) : List α :=
  (l.take stop).drop start

/-- Modelled from the spec: `bytes_to_bits` of `monobit.base.binary` is
not under `src/`; §2 has bit arrays packed MSB-first, which is the
packing the FNT strike uses.  Each byte becomes its 8 bits, most
significant first. -/
def bytes_to_bits (bs : List Nat) : List Bool :=
  (bs.map (fun b => (List.range 8).map (fun i => b.testBit (7 - i)))).flatten

/-- `ceildiv` of `monobit.base.binary` (not under `src/`); standard
ceiling division as the spec's `ceil(width/8)`. -/
def ceildiv (a b : Nat) : Nat := (a + b - 1) / b

/-- Modelled from the spec: `Glyph.from_bytes(data, width)`
(`monobit/glyph.py`, not under `src/`): the data is consecutive rows of
`ceil(width/8)` bytes; each row's bits (MSB-first) are truncated to
`width` pixels. -/
def glyph_from_bytes (data : List Nat) (width : Nat) : List (List Bool) :=
  (data.toChunks (ceildiv width 8)).map (fun row => (bytes_to_bits row).take width)

/-- The FNT header fields that the character-table parsers consult
(parsed elsewhere from the fixed little-endian header layout). -/
structure FntProps where
  dfFirstChar : Nat
  dfLastChar : Nat
  dfPixWidth : Nat
  dfPixHeight : Nat
  dfWidthBytes : Nat
  dfBitsOffset : Nat
  deriving Repr, DecidableEq

/-- A decoded FNT glyph: its codepoint, the stored byte data (v2/v3;
empty for v1) and its pixel rows. -/
structure FntGlyph where
  codepoint : Nat
  data : List Nat
  rows : List (List Bool)
  deriving Repr, DecidableEq

/-- `_FNT_HEADER.size` (0x75), total v1 header size. -/
def FNT_HEADER_SIZE_V1 : Nat := 0x75
/-- v2 header size (`_FNT_HEADER_SIZE[0x200]`). -/
def FNT_HEADER_SIZE_V2 : Nat := 0x76
/-- v3 header size (`_FNT_HEADER_SIZE[0x300]`). -/
def FNT_HEADER_SIZE_V3 : Nat := 0x94

/-- The v1 character-table offsets: for a proportional font
(`dfPixWidth = 0`) they are `n_chars + 1` 16-bit words following the
header; for a fixed-pitch font they are `dfPixWidth * i`. -/
def v1Offsets (p : FntProps) (fnt : List Nat) : List Nat :=
  let n_chars := p.dfLastChar + 1 - p.dfFirstChar
  if p.dfPixWidth = 0 then
    (List.range (n_chars + 1)).map (fun i => u16le fnt (FNT_HEADER_SIZE_V1 + 2 * i))
  else
    (List.range (n_chars + 1)).map (fun i => p.dfPixWidth * i)

/-- The v1 strike: `dfPixHeight` rows of `dfWidthBytes` bytes starting
at `dfBitsOffset`, each turned into bits. -/
def v1Strikerows (p : FntProps) (fnt : List Nat) : List (List Bool) :=
  (List.range p.dfPixHeight).map (fun r =>
    bytes_to_bits (pySlice fnt (p.dfBitsOffset + r * p.dfWidthBytes)
      (p.dfBitsOffset + (r + 1) * p.dfWidthBytes)))

/--
The v1 per-char loop body: a glyph of zero width
(`if not width: continue`) is always skipped; otherwise the keep-test is
`rows or ord in _KEEP_EMPTY`, where `rows` is the tuple of `dfPixHeight`
row slices - truthy whenever `dfPixHeight > 0` regardless of ink - and
`ord` is the table index, not the codepoint.
`v1GlyphRows` are the per-char slices of the strike rows.
-/
def v1GlyphRows (p : FntProps) (fnt : List Nat) (ord : Nat) : List (List Bool) :=
  (v1Strikerows p fnt).map (fun srow =>
    pySlice srow ((v1Offsets p fnt).getD ord 0) ((v1Offsets p fnt).getD (ord + 1) 0))

def v1GlyphAt (p : FntProps) (fnt : List Nat) (ord : Nat) : Option FntGlyph :=
  if (v1Offsets p fnt).getD (ord + 1) 0 = (v1Offsets p fnt).getD ord 0 then none
  else if v1GlyphRows p fnt ord ≠ [] ∨ ord ∈ KEEP_EMPTY then
    some { codepoint := p.dfFirstChar + ord, data := [], rows := v1GlyphRows p fnt ord }
  else none

/--
Embedding of `_parse_chartable_v1` from `monobit/codecs/winfnt.py`.
Valid headers have `dfFirstChar ≤ dfLastChar`; `n_chars` uses truncated
subtraction (for `dfLastChar + 1 < dfFirstChar` ctypes would reject the
negative array size, and no glyphs are produced either way).
`ctypes.from_buffer_copy` raises when the buffer is too short for the
entry array.
-/
def parse_chartable_v1 (p : FntProps) (fnt : List Nat) :
    Except PyError (List FntGlyph) :=
  let n_chars := p.dfLastChar + 1 - p.dfFirstChar
  if p.dfPixWidth = 0 ∧ fnt.length < FNT_HEADER_SIZE_V1 + 2 * (n_chars + 1) then
    .error .valueError
  else
    .ok ((List.range n_chars).filterMap (v1GlyphAt p fnt))

/-- Read `fnt[i]` for each index, with Python `IndexError` semantics;
used for the byte-column gather `fnt[entry.geOffset + col*height + row]`. -/
def pyGather (fnt : List Nat) : List Nat → Except PyError (List Nat)
  | [] => .ok []
  | i :: rest =>
    match fnt[i]? with
    | some b => (pyGather fnt rest).map (fun bs => b :: bs)
    | none => .error .indexError

/-- The index sequence of the v2/v3 byte-column transpose:
`for _row in range(height) for _col in range(bytewidth)`. -/
def glyphDataIndices (geOffset bytewidth height : Nat) : List Nat :=
  ((List.range height).map (fun row =>
    (List.range bytewidth).map (fun col => geOffset + col * height + row))).flatten

/-- The `geWidth` field of the i-th v2/v3 char-table entry
(`_GLYPH_ENTRY[version]`, entry size 4 for v2, 6 for v3). -/
def entryWidth (v3 : Bool) (fnt : List Nat) (i : Nat) : Nat :=
  u16le fnt ((if v3 then FNT_HEADER_SIZE_V3 else FNT_HEADER_SIZE_V2) +
    (if v3 then 6 else 4) * i)

/-- The `geOffset` field of the i-th v2/v3 char-table entry (a word for
v2, a dword for v3). -/
def entryOffset (v3 : Bool) (fnt : List Nat) (i : Nat) : Nat :=
  if v3 then u32le fnt (FNT_HEADER_SIZE_V3 + 6 * i + 2)
  else u16le fnt (FNT_HEADER_SIZE_V2 + 4 * i + 2)

/--
The per-entry loop of `_parse_chartable_v2`: entries with zero width are
skipped ("don't store empty glyphs but count them for ordinals"); the
byte data is gathered column-major and kept when
`any(c for c in glyph_data) or ord in _KEEP_EMPTY` - here `ord` counts
from `dfFirstChar`, so it is the codepoint.
-/
def chartableLoopV2 (p : FntProps) (v3 : Bool) (fnt : List Nat) :
    List Nat → Except PyError (List FntGlyph)
  | [] => .ok []
  | i :: rest =>
    if entryWidth v3 fnt i = 0 then chartableLoopV2 p v3 fnt rest
    else
      match pyGather fnt (glyphDataIndices (entryOffset v3 fnt i)
          (ceildiv (entryWidth v3 fnt i) 8) p.dfPixHeight) with
      | .error e => .error e
      | .ok glyph_data =>
        match chartableLoopV2 p v3 fnt rest with
        | .error e => .error e
        | .ok tail =>
          if glyph_data.any (fun c => c ≠ 0) ∨ p.dfFirstChar + i ∈ KEEP_EMPTY then
            .ok ({ codepoint := p.dfFirstChar + i, data := glyph_data,
                   rows := glyph_from_bytes glyph_data (entryWidth v3 fnt i) } :: tail)
          else .ok tail

/-- Minimum resource length demanded by `from_buffer_copy` for the
v2/v3 entry array. -/
def v2TableBound (p : FntProps) (v3 : Bool) : Nat :=
  (if v3 then FNT_HEADER_SIZE_V3 else FNT_HEADER_SIZE_V2) +
    (if v3 then 6 else 4) * (p.dfLastChar + 1 - p.dfFirstChar)

/--
Embedding of `_parse_chartable_v2` from `monobit/codecs/winfnt.py`
(handles both v2 and, with `v3 = true`, v3 entries of 6 bytes with a
dword offset).  The entry array must fit in the resource
(`from_buffer_copy`), then each entry is processed in order.
-/
def parse_chartable_v2 (p : FntProps) (v3 : Bool) (fnt : List Nat) :
    Except PyError (List FntGlyph) :=
  if fnt.length < v2TableBound p v3 then .error .valueError
  else chartableLoopV2 p v3 fnt (List.range (p.dfLastChar + 1 - p.dfFirstChar))

/-- A raster with no ink: every pixel of every row is off. -/
def noInk (rows : List (List Bool)) : Prop :=
  ∀ r ∈ rows, ∀ b ∈ r, b = false

instance (rows : List (List Bool)) : Decidable (noInk rows) := by
  unfold noInk; infer_instance

/-- The v1 header of the C3 counterexample: a proportional v1 font with
a single char at codepoint 0x41 and a 1-pixel-high strike. -/
def c3Props : FntProps :=
  { dfFirstChar := 0x41, dfLastChar := 0x41, dfPixWidth := 0,
    dfPixHeight := 1, dfWidthBytes := 1, dfBitsOffset := 0x79 }

/-- The FNT resource bytes of the C3 counterexample: a zero header,
char-table offsets 0 and 1 (one glyph of width 1), and an all-zero
strike byte. -/
def c3Fnt : List Nat :=
  List.replicate 0x75 0 ++ [0, 0, 1, 0, 0]

end WinFNT

/--
C3 counterexample: the claim says every FNT glyph whose bitmap has no
ink is at codepoint 0x00 or 0x20 and that other empty glyphs are
dropped.  Parsing the concrete v1 resource `c3Fnt` (proportional font,
one char of width 1 at codepoint 0x41, all-zero strike) yields a glyph
with no ink at codepoint 0x41, which is neither NUL nor SPACE.
-/
theorem C3_counterexample_v1_inkless_glyph_kept :
    WinFNT.parse_chartable_v1 WinFNT.c3Props WinFNT.c3Fnt =
      .ok [{ codepoint := 0x41, data := [], rows := [[false]] }] ∧
    WinFNT.noInk [[false]] ∧ (0x41 : Nat) ∉ WinFNT.KEEP_EMPTY :=
  ⟨by set_option maxRecDepth 20000 in rfl, by decide, by decide⟩

/-- Auxiliary: the v2/v3 char-table loop only emits glyphs whose stored
byte data has a nonzero byte or whose codepoint is NUL or SPACE. -/
theorem chartableLoopV2_keeps (p : WinFNT.FntProps) (v3 : Bool) (fnt : List Nat) :
    ∀ ixs gs, WinFNT.chartableLoopV2 p v3 fnt ixs = .ok gs →
      ∀ g ∈ gs, g.data.any (fun c => c ≠ 0) ∨ g.codepoint ∈ WinFNT.KEEP_EMPTY := by
  intro ixs
  induction ixs with
  | nil =>
    intro gs h g hg
    rw [WinFNT.chartableLoopV2] at h
    cases h
    simp at hg
  | cons i rest ih =>
    intro gs h g hg
    rw [WinFNT.chartableLoopV2] at h
    split at h
    · exact ih gs h g hg
    · split at h
      · cases h
      · split at h
        · cases h
        · rename_i tail htail
          split at h
          · rename_i hkeep
            cases h
            rcases List.mem_cons.mp hg with hg | hg
            · subst hg
              exact hkeep
            · exact ih tail htail g hg
          · cases h
            exact ih _ htail g hg

/-- Auxiliary: characterization of the v1 per-char loop body. -/
theorem v1GlyphAt_eq_some (p : WinFNT.FntProps) (fnt : List Nat) (ord : Nat)
    (g : WinFNT.FntGlyph) :
    WinFNT.v1GlyphAt p fnt ord = some g ↔
      (WinFNT.v1Offsets p fnt).getD (ord + 1) 0 ≠ (WinFNT.v1Offsets p fnt).getD ord 0 ∧
      (p.dfPixHeight ≠ 0 ∨ ord ∈ WinFNT.KEEP_EMPTY) ∧
      g = { codepoint := p.dfFirstChar + ord, data := [],
            rows := WinFNT.v1GlyphRows p fnt ord } := by
  have hlen : (WinFNT.v1GlyphRows p fnt ord ≠ []) ↔ p.dfPixHeight ≠ 0 := by
    simp [WinFNT.v1GlyphRows, WinFNT.v1Strikerows, List.range_eq_nil]
  rw [WinFNT.v1GlyphAt]
  split_ifs with h1 h2
  · constructor
    · intro hc
      exact hc.elim
    · intro ⟨hc1, _, _⟩
      exact absurd h1 hc1
  · constructor
    · intro hv
      refine ⟨h1, ?_, (Option.some_inj.mp hv).symm⟩
      rcases h2 with h2 | h2
      · exact Or.inl (hlen.mp h2)
      · exact Or.inr h2
    · intro ⟨_, _, hv⟩
      rw [hv]
  · constructor
    · intro hc
      exact hc.elim
    · intro ⟨_, hc2, _⟩
      refine absurd ?_ h2
      rcases hc2 with hc2 | hc2
      · exact Or.inl (hlen.mpr hc2)
      · exact Or.inr hc2

/--
C3 amended: empty-glyph retention as the code implements it.
For v1, a char-table slot is decoded to a glyph exactly when its two
consecutive offsets differ (nonzero width) and either the pixel height
is nonzero - in which case the glyph is retained regardless of ink, at
any codepoint - or the table index (not the codepoint) is 0x00 or 0x20.
For v2/v3, every retained glyph has a nonzero byte in its stored column
data or has codepoint 0x00 or 0x20 (emptiness is judged on the stored
bytes, padding bits included, not on the visible pixels).
-/
theorem C3_amended_empty_glyph_retention :
    (∀ p fnt gs, WinFNT.parse_chartable_v1 p fnt = .ok gs →
      ∀ g : WinFNT.FntGlyph,
        (g ∈ gs ↔ ∃ ord < p.dfLastChar + 1 - p.dfFirstChar,
          (WinFNT.v1Offsets p fnt).getD (ord + 1) 0 ≠
            (WinFNT.v1Offsets p fnt).getD ord 0 ∧
          (p.dfPixHeight ≠ 0 ∨ ord ∈ WinFNT.KEEP_EMPTY) ∧
          g = { codepoint := p.dfFirstChar + ord, data := [],
                rows := WinFNT.v1GlyphRows p fnt ord })) ∧
    (∀ p v3 fnt gs, WinFNT.parse_chartable_v2 p v3 fnt = .ok gs →
      ∀ g ∈ gs, g.data.any (fun c => c ≠ 0) ∨ g.codepoint ∈ WinFNT.KEEP_EMPTY) := by
  constructor
  · intro p fnt gs h g
    rw [WinFNT.parse_chartable_v1] at h
    split at h
    · cases h
    · cases h
      rw [List.mem_filterMap]
      constructor
      · intro ⟨ord, hord, hsome⟩
        rw [List.mem_range] at hord
        exact ⟨ord, hord, (v1GlyphAt_eq_some p fnt ord g).mp hsome⟩
      · intro ⟨ord, hord, hcond⟩
        exact ⟨ord, List.mem_range.mpr hord, (v1GlyphAt_eq_some p fnt ord g).mpr hcond⟩
  · intro p v3 fnt gs h
    rw [WinFNT.parse_chartable_v2] at h
    split at h
    · cases h
    · exact chartableLoopV2_keeps p v3 fnt _ gs h

namespace WinFNT

/-- The v2 header and resource of the C3 witness: two chars at
codepoints 0x41 and 0x42, widths 1, heights 1; the first glyph's byte
is 0xFF (kept), the second's is 0x00 (dropped, not NUL/SPACE). -/
def c3PropsV2 : FntProps :=
  { dfFirstChar := 0x41, dfLastChar := 0x42, dfPixWidth := 0,
    dfPixHeight := 1, dfWidthBytes := 1, dfBitsOffset := 0 }

/-- The FNT v2 resource bytes of the C3 witness. -/
def c3FntV2 : List Nat :=
  List.replicate 0x76 0 ++ [1, 0, 0x7E, 0, 1, 0, 0x7F, 0, 0xFF, 0]

end WinFNT

/--
C3 amended witness: concrete instances of both conjuncts.  Parsing the
v2 resource `c3FntV2` retains exactly the glyph at 0x41 whose byte data
(0xFF) is nonzero; and the inkless v1 glyph of `c3Fnt` is in the v1
output because the pixel height is nonzero.
-/
theorem C3_amended_empty_glyph_retention_witness :
    WinFNT.parse_chartable_v2 WinFNT.c3PropsV2 false WinFNT.c3FntV2 =
      .ok [{ codepoint := 0x41, data := [0xFF], rows := [[true]] }] ∧
    (([0xFF] : List Nat).any (fun c => c ≠ 0) ∨ (0x41 : Nat) ∈ WinFNT.KEEP_EMPTY) ∧
    ({ codepoint := 0x41, data := [], rows := [[false]] } : WinFNT.FntGlyph) ∈
      [({ codepoint := 0x41, data := [], rows := [[false]] } : WinFNT.FntGlyph)] := by
  have hv2 : WinFNT.parse_chartable_v2 WinFNT.c3PropsV2 false WinFNT.c3FntV2 =
      .ok [{ codepoint := 0x41, data := [0xFF], rows := [[true]] }] := by
    set_option maxRecDepth 40000 in rfl
  have hv1 : WinFNT.parse_chartable_v1 WinFNT.c3Props WinFNT.c3Fnt =
      .ok [{ codepoint := 0x41, data := [], rows := [[false]] }] := by
    set_option maxRecDepth 40000 in rfl
  refine ⟨hv2, ?_, ?_⟩
  · exact C3_amended_empty_glyph_retention.2 WinFNT.c3PropsV2 false WinFNT.c3FntV2
      _ hv2 _ (List.mem_singleton.mpr rfl)
  · refine (C3_amended_empty_glyph_retention.1 WinFNT.c3Props WinFNT.c3Fnt _ hv1 _).mpr
      ⟨0, by decide, ?_, ?_, ?_⟩
    · set_option maxRecDepth 40000 in decide
    · decide
    · set_option maxRecDepth 40000 in decide

namespace WinFNT

/-- The outcome of the codepoint-range computation in `create_fnt`. -/
structure FntRange where
  min_ord : Nat
  max_ord : Nat
  deriving Repr, DecidableEq

/--
Embedding of the codepoint handling of `create_fnt` from
`monobit/codecs/winfnt.py`: `min_ord = min(codepoints)` (a `ValueError`
on an empty set), `max_ord = min(255, max(codepoints))` - the comment
in the source reads "FNT can hold at most the codepoints 0..256 as
these fields are byte-sized" and the range is silently clamped.  No
codepoint-related exception exists anywhere else in `create_fnt` or in
`save` (which only rejects multiple fonts).
-/
def create_fnt_range (codepoints : List Nat) : Except PyError FntRange :=
  match codepoints.min?, codepoints.max? with
  | some mn, some mx => .ok { min_ord := mn, max_ord := Nat.min 255 mx }
  | _, _ => .error .valueError

/-- The codepoints for which `create_fnt` emits a char-table entry:
`font.get_glyph(cp, missing='empty')` for `cp` in
`range(min_ord, max_ord + 1)`. -/
def fntChartableCodepoints (r : FntRange) : List Nat :=
  (List.range (r.max_ord + 1 - r.min_ord)).map (fun i => r.min_ord + i)

end WinFNT

/--
C2 counterexample: the claim says a font containing a glyph with
codepoint above 255 fails to save with a constraint error.  For the
codepoint set {65, 300} the encoder instead succeeds, clamping the char
table to 65..255; codepoint 300 receives no char-table entry and its
glyph is silently omitted.
-/
theorem C2_counterexample_codepoint_300_not_rejected :
    WinFNT.create_fnt_range [65, 300] = .ok { min_ord := 65, max_ord := 255 } ∧
    (300 : Nat) ∉ WinFNT.fntChartableCodepoints { min_ord := 65, max_ord := 255 } := by
  exact ⟨by rfl, by decide⟩

/--
C2 amended: the FNT encoder does not reject codepoints above 255.  For
every non-empty codepoint set it succeeds, the char table's last
codepoint is `min 255 (max codepoints)`, and every codepoint above 255
is absent from the char table (its glyph is silently dropped).
-/
theorem C2_amended_codepoints_above_255_silently_dropped
    (cps : List Nat) (hne : cps ≠ []) :
    ∃ r, WinFNT.create_fnt_range cps = .ok r ∧
      r.max_ord = Nat.min 255 (cps.max?.getD 0) ∧
      ∀ cp ∈ cps, 255 < cp → cp ∉ WinFNT.fntChartableCodepoints r := by
  obtain ⟨c, cs, rfl⟩ : ∃ c cs, cps = c :: cs := by
    cases cps with
    | nil => exact absurd rfl hne
    | cons c cs => exact ⟨c, cs, rfl⟩
  refine ⟨{ min_ord := cs.foldl min c, max_ord := Nat.min 255 (cs.foldl max c) },
    rfl, rfl, ?_⟩
  intro cp _ hgt hmem
  rw [WinFNT.fntChartableCodepoints, List.mem_map] at hmem
  obtain ⟨i, hi, hcp⟩ := hmem
  rw [List.mem_range] at hi
  dsimp only at hi hcp
  have hd : Nat.min 255 (List.foldl max c cs) ≤ 255 := Nat.min_le_left _ _
  omega

/--
C2 witness: the amended theorem applied to the concrete codepoint set
{65, 300}.
-/
theorem C2_amended_codepoints_above_255_silently_dropped_witness :
    ([65, 300] : List Nat) ≠ [] ∧
    ∃ r, WinFNT.create_fnt_range [65, 300] = .ok r ∧
      r.max_ord = Nat.min 255 (([65, 300] : List Nat).max?.getD 0) ∧
      ∀ cp ∈ ([65, 300] : List Nat), 255 < cp →
        cp ∉ WinFNT.fntChartableCodepoints r :=
  ⟨by decide, C2_amended_codepoints_above_255_silently_dropped [65, 300] (by decide)⟩

namespace NFNT

/-- A glyph as it stands after `_normalize_glyph` (reduced to its ink
bounds horizontally, expanded to the font ink bounds vertically): only
the metrics that `_normalize_metrics` consults.  `advance_width` is the
spec's `left_bearing + raster.width + right_bearing`; reduction
preserves it.  Both can be negative, hence `Int`. -/
structure NGlyph where
  left_bearing : Int
  advance_width : Int
  deriving Repr, DecidableEq

/-- The Apple width/offset metrics attached to each glyph by
`_normalize_metrics`. -/
structure WOGlyph where
  wo_offset : Int
  wo_width : Int
  deriving Repr, DecidableEq

/-- The kerning correction of `_normalize_metrics` from
`monobit/formats/mac/nfnt.py`: `kern = min(left_bearings)` then
`kern = max(0, -kern)` - only negative kerning is handled.  The empty
case is unreachable (`min()` on an empty sequence raises, and the
caller guarantees at least the default glyph). -/
def nfntKern : List NGlyph → Int
  | [] => 0
  | g :: gs => max 0 (-((gs.map (fun x => x.left_bearing)).foldl min g.left_bearing))

/-- `_g.modify(wo_offset=_g.left_bearing+kern, wo_width=_g.advance_width)`
for every glyph. -/
def woMetrics (glyphs : List NGlyph) : List WOGlyph :=
  glyphs.map (fun x =>
    { wo_offset := x.left_bearing + nfntKern glyphs, wo_width := x.advance_width })

/--
Embedding of `_normalize_metrics` from `monobit/formats/mac/nfnt.py`:
after attaching the Apple metrics it raises `FileFormatError` when any
`wo_width >= 255` ("NFNT character width must be < 255"), then when any
`wo_offset >= 255` ("NFNT character offset must be < 255"), and
otherwise returns the annotated glyphs and the kern value.
-/
def normalize_metrics (glyphs : List NGlyph) :
    Except PyError (List WOGlyph × Int) :=
  match glyphs with
  | [] => .error .valueError
  | _ :: _ =>
    if (woMetrics glyphs).any (fun x => 255 ≤ x.wo_width) then
      .error .fileFormatError
    else if (woMetrics glyphs).any (fun x => 255 ≤ x.wo_offset) then
      .error .fileFormatError
    else .ok (woMetrics glyphs, nfntKern glyphs)

end NFNT

/--
C8: for every non-empty glyph list given to the NFNT metric
normalisation, if any glyph's `wo_width` or `wo_offset` is at least 255
the encoder fails with `FileFormatError` (and produces no resource);
otherwise normalisation succeeds for all glyphs, returning every
glyph's metrics together with the kern value.
-/
theorem C8_nfnt_rejects_overflowing_metrics
    (glyphs : List NFNT.NGlyph) (hne : glyphs ≠ []) :
    (NFNT.normalize_metrics glyphs = .error .fileFormatError ↔
      ∃ g ∈ NFNT.woMetrics glyphs, 255 ≤ g.wo_width ∨ 255 ≤ g.wo_offset) ∧
    ((∀ g ∈ NFNT.woMetrics glyphs, g.wo_width < 255 ∧ g.wo_offset < 255) →
      NFNT.normalize_metrics glyphs =
        .ok (NFNT.woMetrics glyphs, NFNT.nfntKern glyphs)) := by
  obtain ⟨g0, gs, rfl⟩ : ∃ g0 gs, glyphs = g0 :: gs := by
    cases glyphs with
    | nil => exact absurd rfl hne
    | cons g0 gs => exact ⟨g0, gs, rfl⟩
  constructor
  · constructor
    · intro h
      rw [NFNT.normalize_metrics] at h
      split at h
      · rcases List.any_eq_true.mp (by assumption) with ⟨g, hg, hp⟩
        exact ⟨g, hg, Or.inl (by exact_mod_cast of_decide_eq_true hp)⟩
      · split at h
        · rcases List.any_eq_true.mp (by assumption) with ⟨g, hg, hp⟩
          exact ⟨g, hg, Or.inr (by exact_mod_cast of_decide_eq_true hp)⟩
        · cases h
    · intro ⟨g, hg, hp⟩
      rw [NFNT.normalize_metrics]
      by_cases h1 : (NFNT.woMetrics (g0 :: gs)).any (fun x => 255 ≤ x.wo_width)
      · rw [if_pos h1]
      · rw [if_neg h1]
        have h2 : (NFNT.woMetrics (g0 :: gs)).any (fun x => 255 ≤ x.wo_offset) := by
          rcases hp with hp | hp
          · exact absurd (List.any_eq_true.mpr ⟨g, hg, decide_eq_true hp⟩) h1
          · exact List.any_eq_true.mpr ⟨g, hg, decide_eq_true hp⟩
        rw [if_pos h2]
  · intro hok
    rw [NFNT.normalize_metrics]
    have h1 : ¬ (NFNT.woMetrics (g0 :: gs)).any (fun x => 255 ≤ x.wo_width) := by
      intro hc
      rcases List.any_eq_true.mp hc with ⟨g, hg, hp⟩
      exact absurd (of_decide_eq_true hp) (not_le.mpr (hok g hg).1)
    have h2 : ¬ (NFNT.woMetrics (g0 :: gs)).any (fun x => 255 ≤ x.wo_offset) := by
      intro hc
      rcases List.any_eq_true.mp hc with ⟨g, hg, hp⟩
      exact absurd (of_decide_eq_true hp) (not_le.mpr (hok g hg).2)
    rw [if_neg h1, if_neg h2]

/--
C8 witness: a single glyph with left bearing 0 and advance 8 passes the
checks (normalisation succeeds); a single glyph with advance 300 is
rejected with `FileFormatError`.
-/
theorem C8_nfnt_rejects_overflowing_metrics_witness :
    NFNT.normalize_metrics [{ left_bearing := 0, advance_width := 8 }] =
      .ok ([{ wo_offset := 0, wo_width := 8 }], 0) ∧
    NFNT.normalize_metrics [{ left_bearing := 0, advance_width := 300 }] =
      .error .fileFormatError := by
  constructor
  · exact (C8_nfnt_rejects_overflowing_metrics
      [{ left_bearing := 0, advance_width := 8 }] (by decide)).2 (by decide)
  · exact (C8_nfnt_rejects_overflowing_metrics
      [{ left_bearing := 0, advance_width := 300 }] (by decide)).1.mpr
      ⟨{ wo_offset := 0, wo_width := 300 }, by decide, by decide⟩

namespace FontModel

/-- A row of pixels contains ink. -/
def inkRow (r : List Bool) : Bool := r.any id

/-- Modelled from the spec (glyph.py is not under `src/`): blank rows
above the ink (`padding.top`); the whole height when there is no ink. -/
def paddingTop (pixels : List (List Bool)) : Nat := pixels.findIdx inkRow

/-- Modelled from the spec: blank rows below the ink (`padding.bottom`);
zero when there is no ink (the empty ink bounds sit at the origin). -/
def paddingBottom (pixels : List (List Bool)) : Nat :=
  if pixels.any inkRow then pixels.reverse.findIdx inkRow else 0

/-- Column `j` contains ink. -/
def colInk (pixels : List (List Bool)) (j : Nat) : Bool :=
  pixels.any (fun r => r.getD j false)

/-- Raster width: length of the first row (all rows are equal length by
the Raster invariant). -/
def glyphWidth (pixels : List (List Bool)) : Nat := (pixels.headD []).length

/-- Modelled from the spec: blank columns left of the ink. -/
def paddingLeft (pixels : List (List Bool)) : Nat :=
  (List.range (glyphWidth pixels)).findIdx (fun j => colInk pixels j)

/-- Modelled from the spec: blank columns right of the ink. -/
def paddingRight (pixels : List (List Bool)) : Nat :=
  if (List.range (glyphWidth pixels)).any (fun j => colInk pixels j) then
    (List.range (glyphWidth pixels)).reverse.findIdx (fun j => colInk pixels j)
  else 0

/-- Ink-bounds width (`glyph.bounding_box.x`): zero when no ink. -/
def inkWidth (pixels : List (List Bool)) : Nat :=
  glyphWidth pixels - paddingLeft pixels - paddingRight pixels

/-- Ink-bounds height (`glyph.bounding_box.y`): zero when no ink. -/
def inkHeight (pixels : List (List Bool)) : Nat :=
  pixels.length - paddingTop pixels - paddingBottom pixels

/-- Modelled from the spec: a glyph owns a raster plus signed bearings,
a vertical shift and an optional right-kerning map (`monobit/glyph.py`
is not under `src/`). -/
structure MGlyph where
  pixels : List (List Bool)
  left_bearing : Int := 0
  right_bearing : Int := 0
  shift_up : Int := 0
  kern_to : List Int := []
  deriving Repr, DecidableEq

/-- Raster height of a glyph. -/
def MGlyph.height (g : MGlyph) : Nat := g.pixels.length

/-- Raster width of a glyph. -/
def MGlyph.width (g : MGlyph) : Nat := glyphWidth g.pixels

/-- `advance_width = left_bearing + raster.width + right_bearing`
(spec §3, glyph.py not under `src/`). -/
def MGlyph.advance_width (g : MGlyph) : Int :=
  g.left_bearing + (g.width : Int) + g.right_bearing

/-- The *set* (overriding) properties relevant to the metric
derivations of `FontProperties` in `monobit/font.py`.  Per the spec's
two-tier property resolution, a set value overrides; a missing value
falls back to the derivation.  `pixel_size` is included to show it is
*stored but never consulted*: in `font.py` `pixel_size` is a plain
read-only property, so the getter ignores any stored value. -/
structure FontSetProps where
  ascent? : Option Int := none
  descent? : Option Int := none
  shift_up? : Option Int := none
  pixel_size? : Option Int := none
  leading? : Option Int := none
  left_bearing? : Option Int := none
  right_bearing? : Option Int := none
  deriving Repr, DecidableEq

/-- A Font: an ordered glyph sequence plus the set-property bag. -/
structure MFont where
  glyphs : List MGlyph
  props : FontSetProps := {}
  deriving Repr, DecidableEq

/-- `left_bearing`: annotated `int` property, default 0. -/
def MFont.left_bearing (f : MFont) : Int := f.props.left_bearing?.getD 0

/-- `shift_up`: annotated `int` property, default 0. -/
def MFont.shift_up (f : MFont) : Int := f.props.shift_up?.getD 0

/-- `leading`: annotated `int` property, default 0. -/
def MFont.leading (f : MFont) : Int := f.props.leading?.getD 0

/-- `ascent` from `monobit/font.py`: the set value if defined, else 0
for an empty font, else `shift_up + max(glyph.height - glyph.padding.top)`. -/
def MFont.ascent (f : MFont) : Int :=
  match f.props.ascent? with
  | some v => v
  | none =>
    if f.glyphs.isEmpty then 0
    else f.shift_up +
      ((f.glyphs.map (fun g => (g.height : Int) - (paddingTop g.pixels : Int))).max?.getD 0)

/-- `descent` from `monobit/font.py`: the set value if defined, else 0
for an empty font, else `-shift_up - min(glyph.padding.bottom)`. -/
def MFont.descent (f : MFont) : Int :=
  match f.props.descent? with
  | some v => v
  | none =>
    if f.glyphs.isEmpty then 0
    else -f.shift_up -
      ((f.glyphs.map (fun g => (paddingBottom g.pixels : Int))).min?.getD 0)

/-- `pixel_size` from `monobit/font.py`: a plain (non-writable)
property - 0 for an empty font, otherwise always `ascent + descent`,
whether those are set or derived.  Any stored `pixel_size` value is
ignored by the getter. -/
def MFont.pixel_size (f : MFont) : Int :=
  if f.glyphs.isEmpty then 0 else f.ascent + f.descent

/-- `line_height` from `monobit/font.py`: `pixel_size + leading`. -/
def MFont.line_height (f : MFont) : Int := f.pixel_size + f.leading

/-- Ink bounds rectangle in font-origin coordinates. -/
structure MBounds where
  left : Int
  bottom : Int
  right : Int
  top : Int
  deriving Repr, DecidableEq

/-- Modelled from the spec: a glyph's minimal ink rectangle relative to
its origin (glyph.py not under `src/`); the zero rectangle when there
is no ink (the font-level code only consults it for glyphs with a
nonzero ink box). -/
def MGlyph.ink_bounds (g : MGlyph) : MBounds :=
  if g.pixels.any inkRow then
    { left := g.left_bearing + (paddingLeft g.pixels : Int),
      bottom := g.shift_up + (paddingBottom g.pixels : Int),
      right := g.left_bearing + ((g.width - paddingRight g.pixels : Nat) : Int),
      top := g.shift_up + ((g.height - paddingTop g.pixels : Nat) : Int) }
  else { left := 0, bottom := 0, right := 0, top := 0 }

/-- `ink_bounds` from `monobit/font.py`: glyphs with an empty ink box
are dropped; with none left, a degenerate box at
`(left_bearing, shift_up)`; else the enclosing box of the glyph ink
bounds, shifted by the font's `left_bearing`/`shift_up`. -/
def MFont.ink_bounds (f : MFont) : MBounds :=
  match f.glyphs.filter (fun g => inkWidth g.pixels != 0 && inkHeight g.pixels != 0) with
  | [] => { left := f.left_bearing, bottom := f.shift_up,
            right := f.left_bearing, top := f.shift_up }
  | nonempty =>
    { left := f.left_bearing + ((nonempty.map (fun g => g.ink_bounds.left)).min?.getD 0),
      bottom := f.shift_up + ((nonempty.map (fun g => g.ink_bounds.bottom)).min?.getD 0),
      right := f.left_bearing + ((nonempty.map (fun g => g.ink_bounds.right)).max?.getD 0),
      top := f.shift_up + ((nonempty.map (fun g => g.ink_bounds.top)).max?.getD 0) }

/-- `bounding_box` height (`monobit/font.py`): ink-bounds extent. -/
def MFont.bounding_box_y (f : MFont) : Int := f.ink_bounds.top - f.ink_bounds.bottom

/--
`spacing` from `monobit/font.py`: `character-cell` for an empty font;
`proportional` on any negative advance or kerning hint; otherwise
classified from the set of nonzero advances and ink containment.
-/
def MFont.spacing (f : MFont) : String :=
  if f.glyphs.isEmpty then "character-cell"
  else if f.glyphs.any (fun g =>
      decide (g.advance_width < 0) || decide (g.kern_to ≠ [])) then "proportional"
  else
    let advances := ((f.glyphs.map (fun g => g.advance_width)).filter (fun a => a != 0)).dedup
    let monospaced := advances.length = 1
    let bispaced := advances.length = 2
    let ink_contained_y := f.bounding_box_y ≤ f.line_height
    let ink_contained_x := f.glyphs.all (fun g =>
      decide ((inkWidth g.pixels : Int) ≤ g.advance_width))
    if ink_contained_x ∧ ink_contained_y ∧ monospaced then "character-cell"
    else if ink_contained_x ∧ ink_contained_y ∧ bispaced then "multi-cell"
    else if monospaced then "monospace"
    else "proportional"

/-- An empty font with no explicit property overrides. -/
def emptyMFont : MFont := { glyphs := [] }

/-- The C9 witness font: one glyph, `ascent` and `descent` explicitly
set to 7 and 3, and a stored `pixel_size` of 99 that the getter must
ignore. -/
def c9Font : MFont :=
  { glyphs := [{ pixels := [[true]] }],
    props := { ascent? := some 7, descent? := some 3, pixel_size? := some 99 } }

end FontModel

/--
C9: for every Font value with at least one glyph - any glyph list, any
combination of set and derived properties, including a stored
`pixel_size` override, which the plain-property getter ignores -
`pixel_size = ascent + descent`.  Since every operation yields a Font
value of this shape and `pixel_size` is recomputed on every access, no
operation can produce a Font with glyphs violating the equation.
-/
theorem C9_pixel_size_equals_ascent_plus_descent
    (f : FontModel.MFont) (hne : f.glyphs ≠ []) :
    f.pixel_size = f.ascent + f.descent := by
  rw [FontModel.MFont.pixel_size, if_neg]
  simp [hne]

/--
C9 witness: the concrete font with `ascent = 7`, `descent = 3` set and
a stored `pixel_size` of 99 satisfies the equation: `pixel_size`
evaluates to 10, not to the stored 99.
-/
theorem C9_pixel_size_equals_ascent_plus_descent_witness :
    FontModel.c9Font.pixel_size = FontModel.c9Font.ascent + FontModel.c9Font.descent ∧
    FontModel.c9Font.pixel_size = 10 :=
  ⟨C9_pixel_size_equals_ascent_plus_descent FontModel.c9Font (by decide), by decide⟩

/--
C10: a Font constructed with no glyphs and no explicit overrides
evaluates its derived metrics to fixed defaults without error:
`spacing` is `character-cell` and `ascent`, `descent` and `pixel_size`
are all 0.
-/
theorem C10_empty_font_defaults :
    FontModel.emptyMFont.spacing = "character-cell" ∧
    FontModel.emptyMFont.ascent = 0 ∧
    FontModel.emptyMFont.descent = 0 ∧
    FontModel.emptyMFont.pixel_size = 0 :=
  ⟨rfl, rfl, rfl, rfl⟩

namespace BMFont

/-- A `char` record of the BMFont descriptor
(`id:u32, x,y,w,h:u16, xoff,yoff,xadv:i16, page:u8, chnl:u8`). -/
structure BChar where
  id : Nat
  x : Nat
  y : Nat
  width : Nat
  height : Nat
  xoffset : Int
  yoffset : Int
  xadvance : Int
  page : Nat
  chnl : Nat
  deriving Repr, DecidableEq

/-- The fields of the `common` block consulted during extraction. -/
structure BCommon where
  base : Int
  redChnl : Nat
  greenChnl : Nat
  blueChnl : Nat
  alphaChnl : Nat
  deriving Repr, DecidableEq

/-- A page image converted to RGBA: pixel at (x, y) as a 4-channel
list.  PIL `crop` is only ever applied inside the char rectangles. -/
abbrev Sheet := Nat → Nat → List Nat

/-- The channel masks of `_extract` from `monobit/bmfont.py`: include a
channel iff the char's `chnl` has that bit (`_CHNL_R=4, _CHNL_G=2,
_CHNL_B=1, _CHNL_A=8`) and the common block's disposition for it is 0
(glyph) or 2 (zero). -/
def masks (common : BCommon) (chnl : Nat) : List Bool :=
  [ decide (chnl &&& 4 ≠ 0) && (common.redChnl == 0 || common.redChnl == 2),
    decide (chnl &&& 2 ≠ 0) && (common.greenChnl == 0 || common.greenChnl == 2),
    decide (chnl &&& 1 ≠ 0) && (common.blueChnl == 0 || common.blueChnl == 2),
    decide (chnl &&& 8 ≠ 0) && (common.alphaChnl == 0 || common.alphaChnl == 2) ]

/-- `tuple(_pix for _pix, _mask in zip(_rgba, masks) if _mask)`. -/
def applyMask (ms : List Bool) (rgba : List Nat) : List Nat :=
  (rgba.zip ms).filterMap (fun pm => if pm.2 then some pm.1 else none)

/-- `crop((x, y, x+w, y+h)).getdata()`: the char rectangle row-major. -/
def cropData (sheet : Sheet) (x y w h : Nat) : List (List Nat) :=
  ((List.range h).map (fun r => (List.range w).map (fun c => sheet (x + c) (y + r)))).flatten

/-- The channel-masked sprite of one char: `()` for zero-size chars;
faulty `chnl = 0` is replaced by 15. -/
def spriteOf (common : BCommon) (sheets : Nat → Sheet) (char : BChar) : List (List Nat) :=
  if char.width ≠ 0 ∧ char.height ≠ 0 then
    (cropData (sheets char.page) char.x char.y char.width char.height).map
      (applyMask (masks common (if char.chnl = 0 then 15 else char.chnl)))
  else []

/--
The monochrome check of `_extract`: `colourset = list(set(...))` (the
set is modelled in first-occurrence order; the classification below is
order-independent whenever the two channel sums differ).  One colour:
background only, no foreground.  More than two: `ValueError`
("Greyscale, colour and antialiased fonts not supported").  Exactly
two: `bg, fg = colourset; if sum(bg) > sum(fg): bg, fg = fg, bg` - the
comment in the source reads "use highest intensity (sum of channels) as
foreground", so the brighter tuple becomes the ink.
-/
def pickColours (colourset : List (List Nat)) :
    Except PyError (Option (List Nat) × Option (List Nat)) :=
  match colourset with
  | [c] => .ok (some c, none)
  | [c1, c2] => if c1.sum > c2.sum then .ok (some c2, some c1) else .ok (some c1, some c2)
  | [] => .ok (none, none)
  | _ => .error .valueError

/-- Modelled from the spec: `Glyph.expand(left, bottom, right, top)`
(`monobit/glyph.py` is not under `src/`): pad the raster with blank
pixels on each side (the spec does not define negative padding; the
inputs used here are non-negative). -/
def expandRows (rows : List (List Bool)) (l b r t : Int) : List (List Bool) :=
  let w := (rows.headD []).length
  let neww := l.toNat + w + r.toNat
  let padded := rows.map (fun row =>
    List.replicate l.toNat false ++ row ++ List.replicate r.toNat false)
  List.replicate t.toNat (List.replicate neww false) ++ padded ++
    List.replicate b.toNat (List.replicate neww false)

/-- Modelled from the spec: `Glyph.empty(width, height)`, a blank
raster. -/
def emptyRows (w h : Int) : List (List Bool) :=
  List.replicate h.toNat (List.replicate w.toNat false)

/-- A glyph decoded from a BMFont spritesheet: the codepoint label the
decoder assigns and the pixel rows. -/
structure BGlyph where
  codepoint : Nat
  pixels : List (List Bool)
  deriving Repr, DecidableEq

/-- The decoded glyphs plus the font-wide metrics `_extract` derives:
`tracking = min_after` and `offset = (min_before, base - max_height)`. -/
structure ExtractResult where
  glyphs : List BGlyph
  tracking : Int
  offset_x : Int
  deriving Repr, DecidableEq

/--
Embedding of the glyph-extraction phase of `_extract` from
`monobit/bmfont.py` (descriptor records already parsed, page images
opened and converted to RGBA).  Bearings are derived from the char
records; each sprite is converted to bits by comparison with the
foreground colour, expanded to a common height and equalized bearings,
and - decisively for C7 - labelled with `codepoint=len(glyphs)`, the
running index, not with the char record's `id`.
-/
def extract (common : BCommon) (sheets : Nat → Sheet) (chars : List BChar) :
    Except PyError ExtractResult :=
  match chars with
  | [] => .ok { glyphs := [], tracking := 0, offset_x := 0 }
  | _ :: _ =>
    let min_after := (chars.map (fun c => c.xadvance - c.xoffset - (c.width : Int))).min?.getD 0
    let min_before := (chars.map (fun c => c.xoffset)).min?.getD 0
    let max_height := (chars.map (fun c => (c.height : Int) + c.yoffset)).max?.getD 0
    let sprites := chars.map (spriteOf common sheets)
    match pickColours sprites.flatten.dedup with
    | .error e => .error e
    | .ok (_, fg) =>
      let gs := (chars.zip sprites).map (fun cs =>
        let char := cs.1
        if char.width ≠ 0 ∧ char.height ≠ 0 then
          let bits := cs.2.map (fun c => decide (some c = fg))
          let rows := bits.toChunks char.width
          expandRows rows (char.xoffset - min_before) char.yoffset
            ((char.xadvance - char.xoffset - (char.width : Int)) - min_after)
            (max_height - ((char.height : Int) + char.yoffset))
        else emptyRows (char.xadvance - min_after) max_height)
      .ok { glyphs := gs.enum.map (fun ig => { codepoint := ig.1, pixels := ig.2 }),
            tracking := min_after, offset_x := min_before }

/-- The advance width of a decoded glyph: the font-wide left bearing
(`offset.x = min_before`), the raster width, and the font-wide right
bearing (`tracking = min_after`). -/
def glyphAdvance (res : ExtractResult) (g : BGlyph) : Int :=
  res.offset_x + (FontModel.glyphWidth g.pixels : Int) + res.tracking

end BMFont

/--
C4 counterexample: the claim says the darker tuple (smaller channel
sum) is taken as ink.  With exactly the two masked tuples (0,0,0,0) and
(255,255,255,255), the decoder picks (255,255,255,255) - the tuple with
the *larger* channel sum - as the foreground (ink) and (0,0,0,0) as the
background, the opposite of the claim.
-/
theorem C4_counterexample_brighter_tuple_is_ink :
    BMFont.pickColours [[0, 0, 0, 0], [255, 255, 255, 255]] =
      .ok (some [0, 0, 0, 0], some [255, 255, 255, 255]) ∧
    ([255, 255, 255, 255] : List Nat).sum > ([0, 0, 0, 0] : List Nat).sum :=
  ⟨rfl, by decide⟩

/--
C4 amended: after masking, if the set of distinct masked tuples across
all sprites has more than 2 elements the decoder fails with
`ValueError`; if it has exactly 2 elements, the *brighter* tuple (the
one with the larger channel sum) is taken as ink (foreground) and the
other as paper (background); on equal sums the assignment follows the
set order, which Python leaves unspecified.
-/
theorem C4_amended_ink_is_larger_channel_sum
    (sprites : List (List (List Nat))) :
    (2 < sprites.flatten.dedup.length →
      BMFont.pickColours sprites.flatten.dedup = .error .valueError) ∧
    (∀ c1 c2, sprites.flatten.dedup = [c1, c2] →
      ∃ bg fg, BMFont.pickColours sprites.flatten.dedup = .ok (some bg, some fg) ∧
        ((bg = c1 ∧ fg = c2) ∨ (bg = c2 ∧ fg = c1)) ∧
        bg.sum ≤ fg.sum) := by
  constructor
  · intro h
    rcases hcs : sprites.flatten.dedup with _ | ⟨a, _ | ⟨b, _ | ⟨c, rest⟩⟩⟩
    · rw [hcs] at h
      simp at h
    · rw [hcs] at h
      simp at h
    · rw [hcs] at h
      simp at h
    · rfl
  · intro c1 c2 hcs
    rw [hcs]
    have hdef : BMFont.pickColours [c1, c2] =
        if c1.sum > c2.sum then .ok (some c2, some c1)
        else .ok (some c1, some c2) := rfl
    by_cases hgt : c1.sum > c2.sum
    · refine ⟨c2, c1, ?_, Or.inr ⟨rfl, rfl⟩, le_of_lt hgt⟩
      rw [hdef, if_pos hgt]
    · refine ⟨c1, c2, ?_, Or.inl ⟨rfl, rfl⟩, le_of_not_lt hgt⟩
      rw [hdef, if_neg hgt]

/--
C4 witness: the amended theorem at concrete masked-tuple sets: a sprite
with three distinct tuples is rejected; a sprite with tuples of channel
sums 0 and 1020 gets ink = the brighter tuple.
-/
theorem C4_amended_ink_is_larger_channel_sum_witness :
    BMFont.pickColours
      (([[[0, 0, 0, 0], [9, 9, 9, 9], [255, 255, 255, 255]]] :
        List (List (List Nat))).flatten.dedup) = .error .valueError ∧
    ∃ bg fg, BMFont.pickColours
      (([[[0, 0, 0, 0], [255, 255, 255, 255]]] :
        List (List (List Nat))).flatten.dedup) = .ok (some bg, some fg) ∧
      ((bg = [0, 0, 0, 0] ∧ fg = [255, 255, 255, 255]) ∨
       (bg = [255, 255, 255, 255] ∧ fg = [0, 0, 0, 0])) ∧
      bg.sum ≤ fg.sum :=
  ⟨(C4_amended_ink_is_larger_channel_sum
      [[[0, 0, 0, 0], [9, 9, 9, 9], [255, 255, 255, 255]]]).1 (by decide),
   (C4_amended_ink_is_larger_channel_sum
      [[[0, 0, 0, 0], [255, 255, 255, 255]]]).2
      [0, 0, 0, 0] [255, 255, 255, 255] (by decide)⟩

namespace BMFont

/-- The `common` block of the C7 input. -/
def c7Common : BCommon :=
  { base := 1, redChnl := 0, greenChnl := 0, blueChnl := 0, alphaChnl := 0 }

/-- The page images of the C7 input: a single black pixel on every
page (only (0,0) of page 0 is ever read). -/
def c7Sheets : Nat → Sheet := fun _ _ _ => [0, 0, 0, 255]

/-- The single char record of the C7 input: id 65, a 1 by 1 sprite at
the origin, `xadvance = 3`. -/
def c7Char : BChar :=
  { id := 65, x := 0, y := 0, width := 1, height := 1,
    xoffset := 0, yoffset := 0, xadvance := 3, page := 0, chnl := 15 }

/-- What the C7 input decodes to. -/
def c7Result : ExtractResult :=
  { glyphs := [{ codepoint := 0, pixels := [[false]] }],
    tracking := 2, offset_x := 0 }

end BMFont

/--
C7: decoding a BMFont descriptor with a single char record with id 65
and a valid monochrome page yields one glyph whose advance equals the
record's `xadvance` (3), as the claim says - but its codepoint is 0,
not 65: `_extract` labels every glyph with `codepoint=len(glyphs)`, the
running index, and never uses `char.id`.  (The kerning table it emits
is keyed by char ids, which then match no glyph.)
-/
theorem C7_bmfont_codepoint_is_index_not_char_id :
    BMFont.extract BMFont.c7Common BMFont.c7Sheets [BMFont.c7Char] = .ok BMFont.c7Result ∧
    (∀ g ∈ BMFont.c7Result.glyphs,
      BMFont.glyphAdvance BMFont.c7Result g = BMFont.c7Char.xadvance ∧
      g.codepoint = 0) ∧
    (0 : Nat) ≠ 65 :=
  ⟨rfl, by decide, by decide⟩

namespace BMFont

/-- The state of a `SpriteNode` (`monobit/bmfont.py`): a leaf is a free
or occupied rectangle; a node with children delegates.  The Python
object mutates in place; here `insert` returns the updated tree. -/
inductive SpriteTree where
  | leaf (l t r b : Nat) (filled : Bool)
  | branch (l t r b : Nat) (c0 c1 : SpriteTree)
  deriving Repr, DecidableEq

/--
Embedding of `SpriteNode.insert` from `monobit/bmfont.py` (the
Blackpawn binary-tree packer).  With children, try the first child and
fall back to the second on `ValueError`.  On a leaf: refuse when
occupied or the image exceeds the free rectangle; place on an exact
fit; otherwise split along the axis with more slack and recurse into
the first child.  The recursion into a freshly created child is not
structural, so a fuel argument bounds it; fuel exhaustion reports the
same `ValueError` and never occurs in the runs proved below (each
insertion deepens the tree by at most two levels per call).
-/
def insert : Nat → SpriteTree → Nat → Nat → Except PyError ((Nat × Nat) × SpriteTree)
  | 0, _, _, _ => .error .valueError
  | fuel + 1, .branch l t r b c0 c1, w, h =>
    (match insert fuel c0 w h with
     | .ok (pos, c0x) => .ok (pos, .branch l t r b c0x c1)
     | .error _ =>
       match insert fuel c1 w h with
       | .ok (pos, c1x) => .ok (pos, .branch l t r b c0 c1x)
       | .error e => .error e)
  | fuel + 1, .leaf l t r b filled, w, h =>
    if filled ∨ r - l < w ∨ b - t < h then .error .valueError
    else if w = r - l ∧ h = b - t then .ok ((l, t), .leaf l t r b true)
    else
      let dw := (r - l) - w
      let dh := (b - t) - h
      let cs := if dw > dh then
          (SpriteTree.leaf l t (l + w) b false, SpriteTree.leaf (l + w) t r b false)
        else
          (SpriteTree.leaf l t r (t + h) false, SpriteTree.leaf l (t + h) r b false)
      match insert fuel cs.1 w h with
      | .ok (pos, c0x) => .ok (pos, .branch l t r b c0x cs.2)
      | .error e => .error e

/-- A glyph as the spritesheet encoder consumes it: its character label
as a list of Unicode codepoints (`glyph.char`), and the dimensions of
its reduced (ink-cropped) raster, `glyph.reduce()`; glyph.py is not
under `src/`, so the reduction is represented by its result. -/
structure EGlyph where
  char : List Nat
  reducedW : Nat
  reducedH : Nat
  deriving Repr, DecidableEq

/-- One `char` entry the encoder emits. -/
structure CharEntry where
  id : Nat
  x : Nat
  y : Nat
  width : Nat
  height : Nat
  page : Nat
  chnl : Nat
  deriving Repr, DecidableEq

/--
One pass of the `for glyph in font.glyphs` loop of
`_create_spritesheets` (`monobit/bmfont.py`) over a fresh sheet.  A
glyph whose char has more than one codepoint reaches
`logging.warning(..., str(label))`, and `label` is not bound anywhere
in the module: `NameError`, not a warning and a skip.  A glyph with
nonzero reduced size is inserted into the tree; on `ValueError` the
loop breaks (page overflow, second component `false`); zero-size glyphs
reuse the previous insert position.  `ord(glyph.char)` on an unlabelled
glyph (empty char) raises `TypeError`.  The second component is `true`
when the loop ran to completion (the `for`-`else` that ends the outer
`while`).
-/
def passGlyphs (fuel page_id chnl : Nat) :
    List EGlyph → SpriteTree → Nat → Nat →
    Except PyError (List CharEntry × Bool)
  | [], _, _, _ => .ok ([], true)
  | g :: rest, tree, x, y =>
    if g.char.length > 1 then .error .nameError
    else
      if g.reducedH ≠ 0 ∧ g.reducedW ≠ 0 then
        match insert fuel tree g.reducedW g.reducedH with
        | .error _ => .ok ([], false)
        | .ok ((nx, ny), treex) =>
          match g.char.head? with
          | none => .error .typeError
          | some cid =>
            match passGlyphs fuel page_id chnl rest treex nx ny with
            | .error e => .error e
            | .ok (entries, done) =>
              .ok ({ id := cid, x := nx, y := ny, width := g.reducedW,
                     height := g.reducedH, page := page_id, chnl := chnl } :: entries,
                   done)
      else
        match g.char.head? with
        | none => .error .typeError
        | some cid =>
          match passGlyphs fuel page_id chnl rest tree x y with
          | .error e => .error e
          | .ok (entries, done) =>
            .ok ({ id := cid, x := x, y := y, width := g.reducedW,
                   height := g.reducedH, page := page_id, chnl := chnl } :: entries,
                 done)

/-- The outcome of the spritesheet packer: `finished` when the glyph
pass completed, `running` when the `while True` loop was still going
after the given number of iterations (the accumulated char entries so
far are carried in both cases). -/
inductive PackOutcome where
  | finished (chars : List CharEntry)
  | running (chars : List CharEntry)
  deriving Repr, DecidableEq

/--
The `while True` loop of `_create_spritesheets`: each iteration starts
a fresh sheet and a fresh tree at (0,0,width,height) - and, decisively
for C6, restarts `for glyph in font.glyphs` from the first glyph, with
all char entries of earlier passes still accumulated.  When the pass
completes, the loop ends; otherwise the next layer or page is started.
`loopFuel` counts while-iterations; running out models observing the
loop still going.
-/
def sheetsLoop (treeFuel size_w size_h : Nat) (packed : Bool) (glyphs : List EGlyph) :
    Nat → Nat → Nat → List CharEntry → Except PyError PackOutcome
  | 0, _, _, acc => .ok (.running acc)
  | fuelw + 1, page_id, layer, acc =>
    let n_layers := if packed then 4 else 1
    let channels := if packed then 1 <<< layer else 15
    match passGlyphs treeFuel page_id channels glyphs
        (.leaf 0 0 size_w size_h false) 0 0 with
    | .error e => .error e
    | .ok (entries, done) =>
      if done then .ok (.finished (acc ++ entries))
      else if layer = n_layers - 1 then
        sheetsLoop treeFuel size_w size_h packed glyphs fuelw (page_id + 1) 0 (acc ++ entries)
      else
        sheetsLoop treeFuel size_w size_h packed glyphs fuelw page_id (layer + 1) (acc ++ entries)

/-- Embedding of `_create_spritesheets` from `monobit/bmfont.py`
(image pasting aside): run the while loop from page 0, layer 0, with no
chars accumulated. -/
def create_spritesheets (treeFuel loopFuel size_w size_h : Nat) (packed : Bool)
    (glyphs : List EGlyph) : Except PyError PackOutcome :=
  sheetsLoop treeFuel size_w size_h packed glyphs loopFuel 0 0 []

end BMFont

/--
C5: the claim says a glyph whose character label is a multi-codepoint
grapheme cluster is skipped with a logged warning and encoding
continues.  In fact the encoder aborts: the warning call
`logging.warning("Can't encode grapheme cluster %s ...", str(label))`
evaluates `str(label)`, and `label` is not bound anywhere in
`bmfont.py`, so encountering such a glyph raises `NameError` (for any
page size, packing mode and fuel).  Here the font holds one glyph
labelled U+0065 U+0301 (e followed by combining acute).
-/
theorem C5_grapheme_cluster_glyph_crashes_encoder
    (treeFuel loopFuel size_w size_h : Nat) (packed : Bool) :
    BMFont.create_spritesheets treeFuel (loopFuel + 1) size_w size_h packed
      [{ char := [0x65, 0x301], reducedW := 1, reducedH := 1 }] =
      .error .nameError := rfl

namespace BMFont

/-- C6 failing input, glyph `A`: one ink pixel, label U+0041. -/
def c6GlyphA : EGlyph := { char := [65], reducedW := 1, reducedH := 1 }

/-- C6 failing input, glyph `B`: one ink pixel, label U+0042. -/
def c6GlyphB : EGlyph := { char := [66], reducedW := 1, reducedH := 1 }

/-- The char entry the packer emits for glyph `A` on page `pid`: every
while-iteration places `A` again at (0,0) of the next page. -/
def c6Entry (pid : Nat) : CharEntry :=
  { id := 65, x := 0, y := 0, width := 1, height := 1, page := pid, chnl := 15 }

end BMFont

/-- Auxiliary: on a 1 by 1 page with the two one-pixel glyphs `A`, `B`,
every while-iteration of the packer places `A`, overflows at `B`,
restarts - so after `lf` iterations from page `pid` the loop is still
running and has accumulated one entry for `A` per page. -/
theorem c6_sheetsLoop_running (tf : Nat) :
    ∀ lf pid acc,
      BMFont.sheetsLoop (tf + 1) 1 1 false [BMFont.c6GlyphA, BMFont.c6GlyphB]
          lf pid 0 acc =
        .ok (.running (acc ++ (List.range' pid lf).map BMFont.c6Entry)) := by
  intro lf
  induction lf with
  | zero =>
    intro pid acc
    simp [BMFont.sheetsLoop]
  | succ n ih =>
    intro pid acc
    have hpass : BMFont.passGlyphs (tf + 1) pid 15
        [BMFont.c6GlyphA, BMFont.c6GlyphB] (.leaf 0 0 1 1 false) 0 0 =
        .ok ([BMFont.c6Entry pid], false) := rfl
    rw [BMFont.sheetsLoop]
    simp only [Bool.false_eq_true, if_false]
    rw [hpass]
    simp only [Nat.sub_self, if_pos rfl, Bool.false_eq_true, if_false]
    rw [ih (pid + 1) (acc ++ [BMFont.c6Entry pid])]
    rw [List.range'_succ]
    simp [List.append_assoc]

/--
C6: the claim says every glyph with non-zero ink that fits the page is
placed exactly once on some page, with no overlaps per (page, channel).
In fact, when a page overflows the `for glyph in font.glyphs` loop
restarts from the first glyph on the fresh page: with a 1 by 1 page and
two one-pixel glyphs `A`, `B`, every iteration places `A` again (one
entry per page, at (0,0) of pages 0, 1, 2, ...), `B` is never placed,
and the `while True` loop never terminates - after any number `lf` of
iterations it is still running.  The second conjunct shows the
duplicate placements concretely after two iterations.
-/
theorem C6_packer_restarts_and_never_terminates :
    (∀ tf lf,
      BMFont.create_spritesheets (tf + 1) lf 1 1 false
          [BMFont.c6GlyphA, BMFont.c6GlyphB] =
        .ok (.running ((List.range' 0 lf).map BMFont.c6Entry))) ∧
    BMFont.create_spritesheets 8 2 1 1 false
        [BMFont.c6GlyphA, BMFont.c6GlyphB] =
      .ok (.running [BMFont.c6Entry 0, BMFont.c6Entry 1]) := by
  constructor
  · intro tf lf
    have h := c6_sheetsLoop_running tf lf 0 []
    simpa [BMFont.create_spritesheets] using h
  · have h := c6_sheetsLoop_running 7 2 0 []
    simpa [BMFont.create_spritesheets, List.range'] using h
